import Mathlib

/-!
# Verification of `dataset_utils/check_dataset.py`

A shallow embedding of the YOLO segmentation dataset checker and proofs about
its behaviour.  Python strings are modelled as `List Char`; a label file is the
list of its lines as returned by `readlines()` (so a file with blank lines is a
non-empty list of whitespace lines, while an empty file is `[]`).  Python
`float` values are modelled as exact decimal fractions `num / den` produced by
the decimal parser below (IEEE-754 rounding, `inf`/`nan` and digit-group
underscores are not modelled; none of the verified properties depend on them).
Python exceptions are modelled with `Except`: the per-line `try/except
ValueError` of `check_single_label` becomes an explicit handler, and the
unguarded dictionary subscripts of `check_images_and_labels` become `Except`
values that can escape.
-/

/-! ## Modelling Python primitives -/

/-- `matchesAt pat s` holds when `pat` occurs at the very front of `s`
(the elementary step of Python's `str.replace` scan). -/
def matchesAt : List Char → List Char → Bool
  | [], _ => true
  | _ :: _, [] => false
  | p :: ps, c :: cs => p == c && matchesAt ps cs

/-- Worker for `replaceAll`.  The second argument counts characters of a
just-matched occurrence that must still be skipped; the scan is structural in
the subject string so that it evaluates inside the kernel.  With `skip = 0`
this performs Python's left-to-right, non-overlapping `str.replace` scan:
at a match the replacement is emitted and the matched characters consumed,
otherwise one character is copied. -/
def replaceAllGo (pat rep : List Char) : List Char → Nat → List Char
  | [], _ => []
  | _ :: rest, skip + 1 => replaceAllGo pat rep rest skip
  | c :: rest, 0 =>
    if pat.length != 0 && matchesAt pat (c :: rest) then
      rep ++ replaceAllGo pat rep rest (pat.length - 1)
    else
      c :: replaceAllGo pat rep rest 0

/-- Python `s.replace(pat, rep)` for a non-empty pattern (the checker only
ever uses the pattern `"images"`). -/
def replaceAll (pat rep s : List Char) : List Char :=
  replaceAllGo pat rep s 0

/-- `occursIn pat s` : `pat` occurs as a contiguous substring of `s`. -/
def occursIn (pat : List Char) : List Char → Bool
  | [] => matchesAt pat []
  | c :: rest => matchesAt pat (c :: rest) || occursIn pat rest

/-- Python `str.strip()` (ASCII whitespace at both ends). -/
def trimL (cs : List Char) : List Char :=
  ((cs.dropWhile Char.isWhitespace).reverse.dropWhile Char.isWhitespace).reverse

/-- Worker for `pySplit`: split at every whitespace character, keeping the
(possibly empty) chunks. -/
def splitWs : List Char → List (List Char)
  | [] => [[]]
  | c :: rest =>
    if c.isWhitespace then [] :: splitWs rest
    else
      match splitWs rest with
      | [] => [[c]]
      | t :: ts => (c :: t) :: ts

/-- Python `str.split()` with no separator: split on whitespace runs and drop
empty chunks. -/
def pySplit (cs : List Char) : List (List Char) :=
  (splitWs cs).filter (fun t => !t.isEmpty)

/-- Digit-string accumulator: all characters must be decimal digits. -/
def parseDigitsGo : List Char → Nat → Option Nat
  | [], acc => some acc
  | c :: rest, acc =>
    if c.isDigit then parseDigitsGo rest (10 * acc + (c.toNat - 48)) else none

/-- Parse a non-empty all-digit string. -/
def parseDigits : List Char → Option Nat
  | [] => none
  | c :: rest => parseDigitsGo (c :: rest) 0

/-- Python `int(token)`: optional sign followed by digits.  (`none` models the
`ValueError` raised on any other shape.) -/
def parseIntPy (cs : List Char) : Option Int :=
  match cs with
  | '-' :: r => (parseDigits r).map (fun d => -(d : Int))
  | '+' :: r => (parseDigits r).map (fun d => (d : Int))
  | _ => (parseDigits cs).map (fun d => (d : Int))

/-- A Python float value as produced by parsing a decimal token: the exact
fraction `num / den` with `den` a positive power of ten. -/
structure PyFloat where
  num : Int
  den : Nat
deriving DecidableEq

/-- Split at the first `'.'`, if any. -/
def splitAtDot : List Char → List Char × Option (List Char)
  | [] => ([], none)
  | c :: rest =>
    if c = '.' then ([], some rest)
    else
      let p := splitAtDot rest
      (c :: p.1, p.2)

/-- Split at the first `'e'`/`'E'`, if any. -/
def splitAtExpMark : List Char → List Char × Option (List Char)
  | [] => ([], none)
  | c :: rest =>
    if c = 'e' ∨ c = 'E' then ([], some rest)
    else
      let p := splitAtExpMark rest
      (c :: p.1, p.2)

/-- Unsigned decimal mantissa: digits with an optional dot, at least one digit
overall (`"1."`, `".5"`, `"1.5"`, `"15"` are accepted; `"."` and `""` are not). -/
def parseMantissa (cs : List Char) : Option PyFloat :=
  match splitAtDot cs with
  | (a, none) => (parseDigits a).map (fun n => ⟨(n : Int), 1⟩)
  | (a, some b) =>
    if a.isEmpty && b.isEmpty then none
    else
      match (if a.isEmpty then some 0 else parseDigits a),
            (if b.isEmpty then some 0 else parseDigits b) with
      | some ai, some bi => some ⟨((ai * 10 ^ b.length + bi : Nat) : Int), 10 ^ b.length⟩
      | _, _ => none

/-- Scale a decimal mantissa by `10 ^ e`. -/
def applyExpTen (v : PyFloat) (e : Int) : PyFloat :=
  match e with
  | .ofNat n => ⟨v.num * ((10 ^ n : Nat) : Int), v.den⟩
  | .negSucc n => ⟨v.num, v.den * 10 ^ (n + 1)⟩

/-- Negation of a parsed float. -/
def PyFloat.neg (v : PyFloat) : PyFloat := ⟨-v.num, v.den⟩

/-- Python `float(token)` on a whitespace-free token: optional sign, decimal
mantissa, optional decimal exponent.  `none` models the raised `ValueError`. -/
def parseFloatPy (cs : List Char) : Option PyFloat :=
  let signed : Bool × List Char :=
    match cs with
    | '-' :: r => (true, r)
    | '+' :: r => (false, r)
    | _ => (false, cs)
  let res : Option PyFloat :=
    match splitAtExpMark signed.2 with
    | (m, none) => parseMantissa m
    | (m, some e) =>
      match parseMantissa m, parseIntPy e with
      | some v, some ex => some (applyExpTen v ex)
      | _, _ => none
  res.map (fun v => if signed.1 then v.neg else v)

/-- The coordinate range test of line 106, `coord_val < 0 or coord_val > 1`,
on the exact fraction (`den` is always positive for parsed values, so
`num/den < 0 ↔ num < 0` and `num/den > 1 ↔ den < num`). -/
def badCoord (v : PyFloat) : Bool := v.num < 0 || (v.den : Int) < v.num

/-! ## `check_single_label` (lines 34-121) -/

/-- The error messages `check_single_label` can append, one constructor per
`result['errors'].append(...)` site, carrying exactly the data interpolated
into the message. -/
inductive LabelError
  | insufficientPoints (lineNum points : Nat)
  | classIdRange (lineNum : Nat) (classId : Int) (numClasses : Nat)
  | oddCoordCount (lineNum coordCount : Nat)
  | coordRange (lineNum : Nat) (value : PyFloat) (index : Nat)
  | numericFormat (lineNum : Nat)
deriving DecidableEq

/-- The warnings `check_single_label` can append. -/
inductive LabelWarning
  | emptyLabelFile
deriving DecidableEq

/-- The dictionary returned by `check_single_label` (lines 45-50). -/
structure CheckResult where
  errors : List LabelError
  warnings : List LabelWarning
  is_empty : Bool
  is_invalid : Bool
deriving DecidableEq

/-- The Python exceptions relevant to the per-line `try` block: `int()` and
`float()` raise `ValueError` on malformed tokens, and nothing else in the
block raises. -/
inductive PyExc
  | valueError
deriving DecidableEq

/-- The coordinate loop of lines 104-112: scan the coordinate tokens left to
right; an unparsable token raises (`.error`, carrying the errors appended so
far inside the scan — none — and the exception); the first out-of-range value
is reported and the loop `break`s; otherwise no error is produced. -/
def scanCoords (lineNum : Nat) : List (List Char) → Nat → Except (List LabelError × PyExc) (List LabelError)
  | [], _ => .ok []
  | c :: rest, i =>
    match parseFloatPy c with
    | none => .error ([], .valueError)
    | some v =>
      if badCoord v then .ok [.coordRange lineNum v i]
      else scanCoords lineNum rest (i + 1)

/-- Parse every token of a list with `float()`; `some vs` exactly when all
parse (used to state properties of the coordinate scan). -/
def parseAll : List (List Char) → Option (List PyFloat)
  | [] => some []
  | c :: rest =>
    match parseFloatPy c, parseAll rest with
    | some v, some vs => some (v :: vs)
    | _, _ => none

/-- The class-id check of lines 85-91. -/
def classErrors (lineNum : Nat) (class_id : Int) (num_classes : Nat) : List LabelError :=
  if class_id < 0 ∨ class_id ≥ (num_classes : Int) then
    [.classIdRange lineNum class_id num_classes]
  else []

/-- The body of the per-line `try` block (lines 83-112): parse the class id,
check its range (without short-circuiting), then check coordinate-count parity
(`continue` on odd) and scan the coordinates.  `.error` carries the errors
appended before the exception escaped the block. -/
def lineBody (lineNum : Nat) (parts : List (List Char)) (num_classes : Nat) :
    Except (List LabelError × PyExc) (List LabelError) :=
  match parseIntPy (parts.headD []) with
  | none => .error ([], .valueError)
  | some class_id =>
    let ce := classErrors lineNum class_id num_classes
    let coords := parts.tail
    if coords.length % 2 ≠ 0 then
      .ok (ce ++ [.oddCoordCount lineNum coords.length])
    else
      match scanCoords lineNum coords 0 with
      | .ok es => .ok (ce ++ es)
      | .error (es, e) => .error (ce ++ es, e)

/-- One non-blank line of a label file (lines 72-119): the token-count check
of lines 75-81 (`continue` on failure), then the `try` block with its
`except ValueError` handler appending the numeric-format error of lines
114-119 after whatever was already appended. -/
def checkLine (lineNum : Nat) (parts : List (List Char)) (num_classes : Nat) : List LabelError :=
  if parts.length < 7 then
    [.insufficientPoints lineNum ((parts.length - 1) / 2)]
  else
    match lineBody lineNum parts num_classes with
    | .ok es => es
    | .error (es, _) => es ++ [.numericFormat lineNum]

/-- The checks that follow the class-id check on a line that reached the `try`
block: parity check then coordinate scan, with the `ValueError` handler.  Used
to state that the class-id check does not short-circuit the rest of the line. -/
def coordPhase (lineNum : Nat) (coords : List (List Char)) : List LabelError :=
  if coords.length % 2 ≠ 0 then [.oddCoordCount lineNum coords.length]
  else
    match scanCoords lineNum coords 0 with
    | .ok es => es
    | .error (es, _) => es ++ [.numericFormat lineNum]

/-- The `for line_num, line in enumerate(lines, 1)` loop of lines 67-119:
strip each line, skip blank ones, and concatenate the per-line errors. -/
def checkLines (num_classes : Nat) : Nat → List (List Char) → List LabelError
  | _, [] => []
  | lineNum, l :: rest =>
    (if (trimL l).isEmpty then [] else checkLine lineNum (pySplit (trimL l)) num_classes) ++
      checkLines num_classes (lineNum + 1) rest

/-- `check_single_label` (lines 34-121) on the list of lines returned by
`readlines()`.  Note the empty-file test of line 61 is `len(lines) == 0`, i.e.
it fires only when the file has no lines at all.  Every
`result['errors'].append` in the source is accompanied by
`result['is_invalid'] = True` and no other statement sets the flag, so
`is_invalid` is the non-emptiness of the collected error list.  (The unused
`img_width`/`img_height` tuple components are omitted.) -/
def check_single_label (lines : List (List Char)) (num_classes : Nat) : CheckResult :=
  if lines.length = 0 then
    { errors := [], warnings := [.emptyLabelFile], is_empty := true, is_invalid := false }
  else
    let es := checkLines num_classes 1 lines
    { errors := es, warnings := [], is_empty := false, is_invalid := !es.isEmpty }

/-- The invalid-labels counter update of lines 287-288: `+= 1` exactly when
the returned record has `is_invalid` set. -/
def invalidIncrement (r : CheckResult) : Nat := if r.is_invalid then 1 else 0

/-! ## `DatasetChecker` (lines 124-348) -/

/-- The value of the `names` field when present: a dict (modelled by its
entries, whose count is `num_classes`) or some other YAML value (line 183
flags the latter). -/
inductive NamesField
  | dict (entries : List (Int × String))
  | other
deriving DecidableEq

/-- The parsed YAML descriptor, restricted to the four keys the checker reads;
`none` models an absent key. -/
structure YamlDict where
  path : Option String
  train : Option String
  val : Option String
  names : Option NamesField
deriving DecidableEq

/-- Outcome of locating and parsing the YAML file (lines 150-160): the file is
missing, `yaml.safe_load` (or `open`) raised, or a dict was parsed. -/
inductive YamlLoad
  | missing
  | unreadable
  | parsed (d : YamlDict)

/-- The messages `DatasetChecker` appends to `self.errors`, one constructor
per `self.errors.append(...)` site reachable in the modelled phases, plus the
label errors forwarded from `check_single_label` by line 283. -/
inductive DatasetError
  | yamlMissing
  | yamlReadFailed
  | missingField (field : String)
  | rootMissing (path : String)
  | namesNotDict
  | imgDirMissing (split : String)
  | labelDirMissing (split : String)
  | noImages (split : String)
  | missingLabel (stem : String)
  | cantOpenImage (stem : String)
  | labelIssue (e : LabelError)
deriving DecidableEq

/-- The messages `DatasetChecker` appends to `self.warnings`. -/
inductive DatasetWarning
  | splitNotConfigured (split : String)
  | orphanLabel (stem : String)
  | labelIssue (w : LabelWarning)
deriving DecidableEq

/-- `DatasetChecker.check_yaml` (lines 146-185): returns the collected errors
of this phase alongside the value `return`ed (`none` for the two early
returns, `some d` otherwise — note a parsed dict is returned even when
required fields are missing).  `pathExists` models `Path.exists()`. -/
def check_yaml (load : YamlLoad) (pathExists : String → Bool) :
    List DatasetError × Option YamlDict :=
  match load with
  | .missing => ([.yamlMissing], none)
  | .unreadable => ([.yamlReadFailed], none)
  | .parsed d =>
    let missingErrs :=
      (if d.path.isNone then [DatasetError.missingField "path"] else []) ++
        (if d.train.isNone then [DatasetError.missingField "train"] else []) ++
          (if d.names.isNone then [DatasetError.missingField "names"] else [])
    let rootErrs :=
      match d.path with
      | none => []
      | some p => if pathExists p then [] else [DatasetError.rootMissing p]
    let namesErrs :=
      match d.names with
      | none => []
      | some (.dict _) => []
      | some .other => [DatasetError.namesNotDict]
    (missingErrs ++ rootErrs ++ namesErrs, some d)

/-- The Python exceptions the modelled `DatasetChecker` phases can raise:
a dictionary subscript on an absent key. -/
inductive PyError
  | keyError (key : String)
deriving DecidableEq

/-- `dataset_config['path']` (line 195): raises `KeyError` when absent. -/
def configPath (cfg : YamlDict) : Except PyError String :=
  match cfg.path with
  | some p => .ok p
  | none => .error (.keyError "path")

/-- `dataset_config['names']` (line 197): raises `KeyError` when absent. -/
def configNames (cfg : YamlDict) : Except PyError NamesField :=
  match cfg.names with
  | some nf => .ok nf
  | none => .error (.keyError "names")

/-- The head of `DatasetChecker.check_images_and_labels` (lines 192-197): an
early `return` on a `None` config, otherwise the two unguarded subscripts
`dataset_config['path']` and `len(dataset_config['names'])` before the split
loop is entered (`.ok` means the loop is reached). -/
def check_images_head (cfg : Option YamlDict) : Except PyError Unit :=
  match cfg with
  | none => .ok ()
  | some d => do
    let _ ← configPath d
    let _ ← configNames d
    pure ()

/-- `DatasetChecker.run` (lines 334-348) up to the point where the split loop
of `check_images_and_labels` is reached: `check_yaml` collects its errors, and
any exception escaping `check_images_and_labels` aborts the run (there is no
handler between it and `main`).  `.ok` carries the errors collected so far. -/
def run_phases (load : YamlLoad) (pathExists : String → Bool) :
    Except PyError (List DatasetError) :=
  let r := check_yaml load pathExists
  match check_images_head r.2 with
  | .ok _ => .ok r.1
  | .error e => .error e

/-- The image/label stems a split's two directories contain: `imageStems` are
the stems of the files with a recognised image extension in the image
directory, `labelStems` the stems of the `*.txt` files in the label
directory. -/
structure SplitFS where
  imageStems : List String
  labelStems : List String

/-- `(label_dir / (img_path.stem + '.txt')).exists()` (lines 247 and 255). -/
def labelExists (fs : SplitFS) (stem : String) : Bool := fs.labelStems.contains stem

/-- The missing-label loop of lines 245-249: append an error and bump the
`missing_labels` counter for every image whose same-stem `.txt` file does not
exist. -/
def scanMissingLabels (fs : SplitFS) : List DatasetError × Nat :=
  fs.imageStems.foldl
    (fun acc stem =>
      if labelExists fs stem then acc else (acc.1 ++ [.missingLabel stem], acc.2 + 1))
    ([], 0)

/-- The pairing loop of lines 252-256: the images whose label file exists
(each paired with that label file) — the set submitted for verification. -/
def valid_pairs (fs : SplitFS) : List String :=
  fs.imageStems.filter (fun stem => labelExists fs stem)

/-- The orphaned-label loop of lines 294-297: append a warning and bump the
`missing_images` counter for every label stem absent from the image-stem
map. -/
def scanOrphanLabels (fs : SplitFS) : List DatasetWarning × Nat :=
  fs.labelStems.foldl
    (fun acc stem =>
      if fs.imageStems.contains stem then acc else (acc.1 ++ [.orphanLabel stem], acc.2 + 1))
    ([], 0)

/-- The checker's accumulated error/warning lists at the end of a run. -/
structure CheckerState where
  errors : List DatasetError
  warnings : List DatasetWarning

/-- The value `DatasetChecker.run` returns (line 348): `len(self.errors) == 0`. -/
def run_result (c : CheckerState) : Bool := c.errors.length == 0

/-- `main` (line 373): `exit(0 if success else 1)`. -/
def main_exit_code (success : Bool) : Nat := if success then 0 else 1

/-! ## The label-directory derivation (line 213) -/

/-- The pattern of the line-213 `replace`. -/
def imagesL : List Char := "images".toList

/-- The replacement of the line-213 `replace`. -/
def labelsL : List Char := "labels".toList

/-- Line 213: `dataset_config[split].replace('images', 'labels')` — the
relative directory whose `*.txt` files are scanned as labels. -/
def labelSubdir (s : List Char) : List Char := replaceAll imagesL labelsL s

/-- Split a path into its `'/'`-separated segments. -/
def splitSegs : List Char → List (List Char)
  | [] => [[]]
  | c :: rest =>
    if c = '/' then [] :: splitSegs rest
    else
      match splitSegs rest with
      | [] => [[c]]
      | t :: ts => (c :: t) :: ts

/-- Join path segments with `'/'` (left inverse of `splitSegs`). -/
def joinSegs : List (List Char) → List Char
  | [] => []
  | [s] => s
  | s :: rest => s ++ '/' :: joinSegs rest

/-- Modelled from the spec's wording, for comparison with `labelSubdir`: a
label dir derived by substituting the split's `"images"` **path segment**
(segments that merely contain `"images"` as a substring being left
unchanged) with `"labels"`. -/
def labelSubdirSegSpec (s : List Char) : List Char :=
  joinSegs ((splitSegs s).map (fun seg => if seg = imagesL then labelsL else seg))

example : check_single_label [] 3 =
    { errors := [], warnings := [.emptyLabelFile], is_empty := true, is_invalid := false } := by
  decide

example : check_single_label [" \n".toList] 3 =
    { errors := [], warnings := [], is_empty := false, is_invalid := false } := by
  decide

example : check_single_label ["0 0.1 0.2 0.3 0.4 0.5 0.6\n".toList] 3 =
    { errors := [], warnings := [], is_empty := false, is_invalid := false } := by
  decide

example : check_single_label ["0 2.5 0.2 0.3 0.4 0.5 0.6\n".toList] 3 =
    { errors := [.coordRange 1 ⟨25, 10⟩ 0], warnings := [], is_empty := false,
      is_invalid := true } := by
  decide

example : check_single_label ["5 0.1 0.2 0.3 0.4 0.5 1.5\n".toList] 3 =
    { errors := [.classIdRange 1 5 3, .coordRange 1 ⟨15, 10⟩ 5], warnings := [],
      is_empty := false, is_invalid := true } := by
  decide

example : check_single_label ["0 0.1 0.2\n".toList] 3 =
    { errors := [.insufficientPoints 1 1], warnings := [], is_empty := false,
      is_invalid := true } := by
  decide

example : check_single_label ["0 0.1 0.2 0.3 0.4 0.5 0.6 0.7\n".toList] 3 =
    { errors := [.oddCoordCount 1 7], warnings := [], is_empty := false,
      is_invalid := true } := by
  decide

example : check_single_label ["x 0.1 0.2 0.3 0.4 0.5 0.6\n".toList] 3 =
    { errors := [.numericFormat 1], warnings := [], is_empty := false,
      is_invalid := true } := by
  decide

example : check_single_label ["7 0.1 bad 0.3 0.4 0.5 0.6\n".toList] 3 =
    { errors := [.classIdRange 1 7 3, .numericFormat 1], warnings := [],
      is_empty := false, is_invalid := true } := by
  decide

example : parseFloatPy "-1.5e-2".toList = some ⟨-15, 1000⟩ := by decide

example : parseFloatPy "2e3".toList = some ⟨2000, 1⟩ := by decide

example : parseFloatPy ".".toList = none := by decide

example : parseIntPy "-12".toList = some (-12) := by decide

/-! ## Helper lemmas -/

theorem checkLine_eq_class_append (ln : Nat) (parts : List (List Char)) (n : Nat) (cid : Int)
    (h7 : 7 ≤ parts.length) (hcid : parseIntPy (parts.headD []) = some cid) :
    checkLine ln parts n = classErrors ln cid n ++ coordPhase ln parts.tail := by
  have h7' : ¬ parts.length < 7 := by omega
  unfold checkLine lineBody coordPhase
  rw [if_neg h7', hcid]
  dsimp only
  by_cases hodd : parts.tail.length % 2 ≠ 0
  · rw [if_pos hodd, if_pos hodd]
  · rw [if_neg hodd, if_neg hodd]
    cases hsc : scanCoords ln parts.tail 0 with
    | ok es => rfl
    | error p =>
      cases p with
      | mk es e => simp [List.append_assoc]

theorem scanCoords_ok_of_all_good (ln : Nat) :
    ∀ (cs : List (List Char)) (vs : List PyFloat) (k : Nat),
      parseAll cs = some vs → (∀ v ∈ vs, badCoord v = false) →
      scanCoords ln cs k = .ok [] := by
  intro cs
  induction cs with
  | nil => intro vs k _ _; rfl
  | cons c rest ih =>
    intro vs k hp hgood
    unfold parseAll at hp
    cases hc : parseFloatPy c with
    | none => rw [hc] at hp; exact absurd hp (by simp)
    | some v =>
      rw [hc] at hp
      cases hr : parseAll rest with
      | none => rw [hr] at hp; exact absurd hp (by simp)
      | some vs' =>
        rw [hr] at hp
        simp only [Option.some.injEq] at hp
        subst hp
        have hv : badCoord v = false := hgood v (by simp)
        unfold scanCoords
        rw [hc]
        dsimp only
        rw [hv]
        simp only [Bool.false_eq_true, if_false]
        exact ih vs' (k + 1) hr (fun w hw => hgood w (by simp [hw]))

theorem scanCoords_first_bad (ln : Nat) :
    ∀ (cs : List (List Char)) (vs : List PyFloat) (k : Nat),
      parseAll cs = some vs → (∃ v ∈ vs, badCoord v = true) →
      ∃ i v, vs[i]? = some v ∧ badCoord v = true ∧
        (∀ j w, j < i → vs[j]? = some w → badCoord w = false) ∧
        scanCoords ln cs k = .ok [.coordRange ln v (k + i)] := by
  intro cs
  induction cs with
  | nil =>
    intro vs k hp hbad
    unfold parseAll at hp
    simp only [Option.some.injEq] at hp
    subst hp
    simp at hbad
  | cons c rest ih =>
    intro vs k hp hbad
    unfold parseAll at hp
    cases hc : parseFloatPy c with
    | none => rw [hc] at hp; exact absurd hp (by simp)
    | some v =>
      rw [hc] at hp
      cases hr : parseAll rest with
      | none => rw [hr] at hp; exact absurd hp (by simp)
      | some vs' =>
        rw [hr] at hp
        simp only [Option.some.injEq] at hp
        subst hp
        by_cases hv : badCoord v = true
        · refine ⟨0, v, by simp, hv, by omega, ?_⟩
          unfold scanCoords
          rw [hc]
          dsimp only
          rw [if_pos hv, Nat.add_zero]
        · have hv' : badCoord v = false := by
            cases hbv : badCoord v
            · rfl
            · exact absurd hbv hv
          have hbad' : ∃ w ∈ vs', badCoord w = true := by
            obtain ⟨w, hw, hbw⟩ := hbad
            rcases List.mem_cons.mp hw with h | h
            · subst h; exact absurd hbw hv
            · exact ⟨w, h, hbw⟩
          obtain ⟨i, w, h1, h2, h3, h4⟩ := ih vs' (k + 1) hr hbad'
          refine ⟨i + 1, w, by simpa using h1, h2, ?_, ?_⟩
          · intro j u hj hu
            cases j with
            | zero =>
              simp only [List.getElem?_cons_zero, Option.some.injEq] at hu
              subst hu; exact hv'
            | succ j' =>
              simp only [List.getElem?_cons_succ] at hu
              exact h3 j' u (by omega) hu
          · unfold scanCoords
            rw [hc]
            dsimp only
            rw [if_neg (by simp [hv']), h4]
            congr 3
            omega

theorem parseAll_length :
    ∀ (cs : List (List Char)) (vs : List PyFloat), parseAll cs = some vs →
      vs.length = cs.length := by
  intro cs
  induction cs with
  | nil => intro vs hp; unfold parseAll at hp; simp only [Option.some.injEq] at hp; subst hp; rfl
  | cons c rest ih =>
    intro vs hp
    unfold parseAll at hp
    cases hc : parseFloatPy c with
    | none => rw [hc] at hp; exact absurd hp (by simp)
    | some v =>
      rw [hc] at hp
      cases hr : parseAll rest with
      | none => rw [hr] at hp; exact absurd hp (by simp)
      | some vs' =>
        rw [hr] at hp
        simp only [Option.some.injEq] at hp
        subst hp
        simp [ih vs' hr]

theorem mem_checkLines (n : Nat) :
    ∀ (lines : List (List Char)) (ln i : Nat) (l : List Char) (e : LabelError),
      lines[i]? = some l → (trimL l).isEmpty = false →
      e ∈ checkLine (ln + i) (pySplit (trimL l)) n → e ∈ checkLines n ln lines := by
  intro lines
  induction lines with
  | nil => intro ln i l e h; simp at h
  | cons l0 rest ih =>
    intro ln i l e hget hblank hmem
    cases i with
    | zero =>
      simp only [List.getElem?_cons_zero, Option.some.injEq] at hget
      subst hget
      unfold checkLines
      rw [hblank]
      simp only [Bool.false_eq_true, if_false]
      exact List.mem_append_left _ (by simpa using hmem)
    | succ i' =>
      simp only [List.getElem?_cons_succ] at hget
      unfold checkLines
      refine List.mem_append_right _ ?_
      have : ln + (i' + 1) = (ln + 1) + i' := by omega
      rw [this] at hmem
      exact ih (ln + 1) i' l e hget hblank hmem

theorem is_invalid_of_line_error (lines : List (List Char)) (n i : Nat) (l : List Char)
    (e : LabelError) (hget : lines[i]? = some l) (hblank : (trimL l).isEmpty = false)
    (hmem : e ∈ checkLine (1 + i) (pySplit (trimL l)) n) :
    (check_single_label lines n).is_invalid = true := by
  have hlen : ¬ lines.length = 0 := by
    obtain ⟨hi, -⟩ := List.getElem?_eq_some.mp hget
    omega
  have hin : e ∈ checkLines n 1 lines := mem_checkLines n lines 1 i l e hget hblank hmem
  unfold check_single_label
  rw [if_neg hlen]
  simp only
  cases hc : checkLines n 1 lines with
  | nil => rw [hc] at hin; simp at hin
  | cons a as => simp [hc]

theorem foldl_collect {α β : Type} (p : α → Bool) (g : α → β) :
    ∀ (xs : List α) (acc : List β × Nat),
      xs.foldl (fun acc x => if p x then acc else (acc.1 ++ [g x], acc.2 + 1)) acc
        = (acc.1 ++ ((xs.filter (fun x => !p x)).map g),
           acc.2 + (xs.filter (fun x => !p x)).length) := by
  intro xs
  induction xs with
  | nil => intro acc; simp
  | cons x xs ih =>
    intro acc
    by_cases hx : p x = true
    · simp only [List.foldl_cons, hx, if_pos, List.filter_cons, Bool.not_eq_eq_eq_not,
        Bool.not_true]
      rw [ih]
      simp [hx]
    · have hx' : p x = false := by
        cases h : p x
        · rfl
        · exact absurd h hx
      simp only [List.foldl_cons, hx', Bool.false_eq_true, if_false]
      rw [ih]
      simp only [List.filter_cons, hx', Bool.not_false, if_pos, List.map_cons,
        List.length_cons, Prod.mk.injEq]
      exact ⟨by simp [List.append_assoc], by omega⟩

theorem replaceAllGo_nil (pat rep : List Char) (skip : Nat) :
    replaceAllGo pat rep [] skip = [] := rfl

theorem replaceAllGo_cons_zero (pat rep : List Char) (c : Char) (rest : List Char) :
    replaceAllGo pat rep (c :: rest) 0 =
      if pat.length != 0 && matchesAt pat (c :: rest) then
        rep ++ replaceAllGo pat rep rest (pat.length - 1)
      else
        c :: replaceAllGo pat rep rest 0 := rfl

theorem replaceAllGo_skip (pat rep : List Char) :
    ∀ (s : List Char) (skip : Nat),
      replaceAllGo pat rep s skip = replaceAllGo pat rep (s.drop skip) 0 := by
  intro s
  induction s with
  | nil => intro skip; simp [replaceAllGo]
  | cons c rest ih =>
    intro skip
    cases skip with
    | zero => rfl
    | succ k => rw [List.drop_succ_cons]; exact ih k

theorem matchesAt_self_append (pat : List Char) :
    ∀ t, matchesAt pat (pat ++ t) = true := by
  induction pat with
  | nil => intro t; rfl
  | cons p ps ih => intro t; simp [matchesAt, ih]

theorem replaceAllGo_match (pat rep : List Char) (hne : pat ≠ []) :
    ∀ t, replaceAllGo pat rep (pat ++ t) 0 = rep ++ replaceAllGo pat rep t 0 := by
  intro t
  cases pat with
  | nil => exact absurd rfl hne
  | cons p ps =>
    have hcond : ((p :: ps).length != 0 && matchesAt (p :: ps) (p :: (ps ++ t))) = true := by
      simp only [Bool.and_eq_true, bne_iff_ne, ne_eq, List.length_cons]
      refine ⟨by omega, ?_⟩
      have := matchesAt_self_append (p :: ps) t
      simpa using this
    have hdrop : List.drop ((p :: ps).length - 1) (ps ++ t) = t := by
      simp only [List.length_cons, Nat.add_sub_cancel]
      exact List.drop_left ps t
    show replaceAllGo (p :: ps) rep (p :: (ps ++ t)) 0 = _
    rw [replaceAllGo_cons_zero, if_pos hcond, replaceAllGo_skip, hdrop]

theorem matchesAt_of_append_sep (pat : List Char) (hsep : '/' ∉ pat) :
    ∀ (s t : List Char), matchesAt pat (s ++ '/' :: t) = true → matchesAt pat s = true := by
  induction pat with
  | nil => intro s t _; rfl
  | cons p ps ih =>
    intro s t hm
    cases s with
    | nil =>
      exfalso
      simp only [List.nil_append, matchesAt, Bool.and_eq_true, beq_iff_eq] at hm
      exact hsep (by simp [hm.1])
    | cons c cs =>
      simp only [List.cons_append, matchesAt, Bool.and_eq_true] at hm ⊢
      exact ⟨hm.1, ih (fun h => hsep (by simp [h])) cs t hm.2⟩

theorem replaceAllGo_no_occur (pat rep : List Char) :
    ∀ s, occursIn pat s = false → replaceAllGo pat rep s 0 = s := by
  intro s
  induction s with
  | nil => intro _; rfl
  | cons c cs ih =>
    intro hocc
    simp only [occursIn, Bool.or_eq_false_iff] at hocc
    have hcond : ¬ ((pat.length != 0 && matchesAt pat (c :: cs)) = true) := by
      intro hc
      simp only [Bool.and_eq_true] at hc
      rw [hocc.1] at hc
      exact Bool.false_ne_true hc.2
    rw [replaceAllGo_cons_zero, if_neg hcond, ih hocc.2]

theorem replaceAllGo_across_sep (pat rep : List Char) (hne : pat ≠ []) (hsep : '/' ∉ pat) :
    ∀ (s t : List Char), occursIn pat s = false →
      replaceAllGo pat rep (s ++ '/' :: t) 0 = s ++ '/' :: replaceAllGo pat rep t 0 := by
  intro s
  induction s with
  | nil =>
    intro t _
    simp only [List.nil_append]
    have hcond : ¬ ((pat.length != 0 && matchesAt pat ('/' :: t)) = true) := by
      intro hc
      simp only [Bool.and_eq_true] at hc
      cases pat with
      | nil => simp at hc
      | cons p ps =>
        have := hc.2
        simp only [matchesAt, Bool.and_eq_true, beq_iff_eq] at this
        exact hsep (by simp [this.1])
    rw [replaceAllGo_cons_zero, if_neg hcond]
  | cons c cs ih =>
    intro t hocc
    simp only [occursIn, Bool.or_eq_false_iff] at hocc
    simp only [List.cons_append]
    have hcond : ¬ ((pat.length != 0 && matchesAt pat (c :: (cs ++ '/' :: t))) = true) := by
      intro hc
      simp only [Bool.and_eq_true] at hc
      have hm : matchesAt pat (c :: cs) = true :=
        matchesAt_of_append_sep pat hsep (c :: cs) t (by simpa using hc.2)
      rw [hocc.1] at hm
      exact Bool.false_ne_true hm
    rw [replaceAllGo_cons_zero, if_neg hcond, ih t hocc.2]

theorem replaceAllGo_sep_cons (pat rep : List Char) (hne : pat ≠ []) (hsep : '/' ∉ pat)
    (t : List Char) :
    replaceAllGo pat rep ('/' :: t) 0 = '/' :: replaceAllGo pat rep t 0 := by
  have h := replaceAllGo_across_sep pat rep hne hsep [] t (by
    cases pat with
    | nil => exact absurd rfl hne
    | cons p ps => rfl)
  simpa using h

theorem replaceAll_segs (pat rep : List Char) (hne : pat ≠ []) (hsep : '/' ∉ pat) :
    ∀ (segs : List (List Char)), (∀ s ∈ segs, s = pat ∨ occursIn pat s = false) →
      replaceAll pat rep (joinSegs segs)
        = joinSegs (segs.map (fun s => if s = pat then rep else s)) := by
  intro segs
  induction segs with
  | nil => intro _; rfl
  | cons s rest ih =>
    intro hsegs
    cases rest with
    | nil =>
      by_cases hs : s = pat
      · subst hs
        have hmap : (if s = s then rep else s) = rep := if_pos rfl
        rw [List.map_cons, List.map_nil, hmap]
        show replaceAllGo s rep (joinSegs [s]) 0 = joinSegs [rep]
        show replaceAllGo s rep s 0 = rep
        have h2 := replaceAllGo_match s rep hne []
        rw [List.append_nil, replaceAllGo_nil, List.append_nil] at h2
        exact h2
      · have hocc : occursIn pat s = false := by
          rcases hsegs s (by simp) with h | h
          · exact absurd h hs
          · exact h
        rw [List.map_cons, List.map_nil, if_neg hs]
        show replaceAllGo pat rep s 0 = s
        exact replaceAllGo_no_occur pat rep s hocc
    | cons s2 rest2 =>
      have hjoin : ∀ (a : List Char) (b : List Char) (bs : List (List Char)),
          joinSegs (a :: b :: bs) = a ++ '/' :: joinSegs (b :: bs) := fun _ _ _ => rfl
      have ihrest : replaceAllGo pat rep (joinSegs (s2 :: rest2)) 0
          = joinSegs ((s2 :: rest2).map (fun x => if x = pat then rep else x)) :=
        ih (fun x hx => hsegs x (by simp [hx]))
      by_cases hs : s = pat
      · subst hs
        show replaceAllGo s rep (joinSegs (s :: s2 :: rest2)) 0 = _
        rw [hjoin s s2 rest2, replaceAllGo_match s rep hne,
          replaceAllGo_sep_cons s rep hne hsep, ihrest]
        simp [hjoin]
      · have hocc : occursIn pat s = false := by
          rcases hsegs s (by simp) with h | h
          · exact absurd h hs
          · exact h
        show replaceAllGo pat rep (joinSegs (s :: s2 :: rest2)) 0 = _
        rw [hjoin s s2 rest2, replaceAllGo_across_sep pat rep hne hsep s _ hocc, ihrest]
        simp [hjoin, hs]

theorem checkLines_blank (n : Nat) :
    ∀ (lines : List (List Char)) (ln : Nat), (∀ l ∈ lines, trimL l = []) →
      checkLines n ln lines = [] := by
  intro lines
  induction lines with
  | nil => intro ln _; rfl
  | cons l rest ih =>
    intro ln hblank
    unfold checkLines
    have h0 : trimL l = [] := hblank l (by simp)
    rw [h0]
    simp only [List.isEmpty_nil, if_pos, List.nil_append]
    exact ih (ln + 1) (fun x hx => hblank x (by simp [hx]))

/-! ## The claims -/

/-- C1, counterexample: a label file whose content is a single whitespace-only
line yields zero non-blank lines, yet `check_single_label` reports
`is_empty = false` and **zero** warnings — the empty-file branch fires only
when `readlines()` returns no lines at all, not whenever no line is
non-blank. -/
theorem c1_counterexample :
    (∀ l ∈ [[' ', '\n']], trimL l = []) ∧
    (check_single_label [[' ', '\n']] 3).is_empty = false ∧
    (check_single_label [[' ', '\n']] 3).warnings = [] ∧
    (check_single_label [[' ', '\n']] 3).errors = [] ∧
    invalidIncrement (check_single_label [[' ', '\n']] 3) = 0 := by
  decide

/-- C1, amended: a label file with zero non-blank lines always yields zero
errors, `is_invalid = false`, and no invalid-count increment; it additionally
yields `is_empty = true` and exactly one warning when (and only when) the file
has no lines at all (`readlines()` returned `[]`), while a file consisting
solely of blank/whitespace lines yields `is_empty = false` and no warning. -/
theorem c1_blank_file (lines : List (List Char)) (n : Nat)
    (hblank : ∀ l ∈ lines, trimL l = []) :
    (check_single_label lines n).errors = [] ∧
    (check_single_label lines n).is_invalid = false ∧
    invalidIncrement (check_single_label lines n) = 0 ∧
    (lines = [] →
      (check_single_label lines n).is_empty = true ∧
      (check_single_label lines n).warnings = [LabelWarning.emptyLabelFile]) ∧
    (lines ≠ [] →
      (check_single_label lines n).is_empty = false ∧
      (check_single_label lines n).warnings = []) := by
  cases lines with
  | nil =>
    refine ⟨rfl, rfl, rfl, fun _ => ⟨rfl, rfl⟩, fun h => absurd rfl h⟩
  | cons l rest =>
    have hlen : ¬ (l :: rest).length = 0 := by simp
    have hck : checkLines n 1 (l :: rest) = [] := checkLines_blank n (l :: rest) 1 hblank
    unfold check_single_label invalidIncrement
    rw [if_neg hlen]
    simp [hck]

/-- C1 witness: the amended statement at the concrete one-blank-line file. -/
theorem c1_blank_file_witness :
    (∀ l ∈ [[' ']], trimL l = []) ∧
    ((check_single_label [[' ']] 5).errors = [] ∧
      (check_single_label [[' ']] 5).is_invalid = false ∧
      invalidIncrement (check_single_label [[' ']] 5) = 0 ∧
      ([[' ']] = ([] : List (List Char)) →
        (check_single_label [[' ']] 5).is_empty = true ∧
        (check_single_label [[' ']] 5).warnings = [LabelWarning.emptyLabelFile]) ∧
      ([[' ']] ≠ ([] : List (List Char)) →
        (check_single_label [[' ']] 5).is_empty = false ∧
        (check_single_label [[' ']] 5).warnings = [])) :=
  ⟨by decide, c1_blank_file [[' ']] 5 (by decide)⟩

/-- C2: the run does *not* survive a descriptor that parses but lacks the
required `path` key — `check_yaml` records the missing-field error (intending
to continue) and then `check_images_and_labels` dereferences
`dataset_config['path']` unguarded, so the run aborts with an uncaught
`KeyError` before reaching the summary.  This contradicts the documented
collect-all-defects policy (a code bug). -/
theorem c2_missing_path_keyerror :
    ∀ pathExists : String → Bool,
      (check_yaml
          (.parsed ⟨none, some "images/train", none, some (.dict [(0, "object")])⟩)
          pathExists).1
        = [DatasetError.missingField "path"] ∧
      run_phases
          (.parsed ⟨none, some "images/train", none, some (.dict [(0, "object")])⟩)
          pathExists
        = .error (.keyError "path") := by
  intro pathExists
  exact ⟨rfl, rfl⟩

/-- C3, counterexample: the scanner derives the label directory with plain
substring replacement (`str.replace('images', 'labels')`), not a
path-segment substitution: on the split path `"images/sub_images"` the second
segment merely *contains* `"images"` yet is rewritten too. -/
theorem c3_counterexample :
    labelSubdir "images/sub_images".toList = "labels/sub_labels".toList ∧
    labelSubdirSegSpec "images/sub_images".toList = "labels/sub_images".toList ∧
    labelSubdir "images/sub_images".toList ≠ labelSubdirSegSpec "images/sub_images".toList := by
  decide

/-- C3, amended: the label directory is the split's image-directory path with
**every substring occurrence** of `"images"` replaced by `"labels"`; in
particular, on paths whose segments are either exactly `"images"` or do not
contain `"images"` as a substring at all, this coincides with substituting
the `"images"` segments. -/
theorem c3_substring_replace (segs : List (List Char))
    (hsegs : ∀ s ∈ segs, s = imagesL ∨ occursIn imagesL s = false) :
    labelSubdir (joinSegs segs)
      = joinSegs (segs.map (fun s => if s = imagesL then labelsL else s)) :=
  replaceAll_segs imagesL labelsL (by decide) (by decide) segs hsegs

/-- C3 witness: the amended statement at the concrete split path
`"images/train"`. -/
theorem c3_substring_replace_witness :
    (∀ s ∈ [imagesL, "train".toList], s = imagesL ∨ occursIn imagesL s = false) ∧
    labelSubdir (joinSegs [imagesL, "train".toList])
      = joinSegs ([imagesL, "train".toList].map (fun s => if s = imagesL then labelsL else s)) :=
  ⟨by decide, c3_substring_replace [imagesL, "train".toList] (by decide)⟩

/-- C4, counterexample: on the line `"0 2.0 3.0"` every coordinate token
parses as a float, the coordinate count is even, and `2.0 > 1` — yet no range
error is emitted, because the token-count check rejects the line first with
an insufficient-points error.  (The claim omits the `≥ 7` tokens /
parsable-class-id preconditions.) -/
theorem c4_counterexample :
    (parseAll [['2', '.', '0'], ['3', '.', '0']]).isSome = true ∧
    [['2', '.', '0'], ['3', '.', '0']].length % 2 = 0 ∧
    (∃ v, parseFloatPy ['2', '.', '0'] = some v ∧ badCoord v = true) ∧
    checkLine 1 [['0'], ['2', '.', '0'], ['3', '.', '0']] 80
      = [.insufficientPoints 1 1] ∧
    (∀ v i, LabelError.coordRange 1 v i
      ∉ checkLine 1 [['0'], ['2', '.', '0'], ['3', '.', '0']] 80) := by
  refine ⟨by decide, by decide, ⟨⟨20, 10⟩, by decide, by decide⟩, by decide, ?_⟩
  intro v i hmem
  rw [(by decide : checkLine 1 [['0'], ['2', '.', '0'], ['3', '.', '0']] 80
    = [.insufficientPoints 1 1])] at hmem
  simp at hmem

/-- C4, amended: on a label line with at least 7 tokens whose first token
parses as an integer, whose coordinate tokens all parse as floats and whose
coordinate count is even, if any coordinate value is out of `[0, 1]` then the
line contributes exactly the class-id errors plus **one** range error citing
the first offending value and its index (no later coordinate is checked), and
the file is marked invalid. -/
theorem c4_first_range_violation (ln : Nat) (parts : List (List Char)) (n : Nat) (cid : Int)
    (vs : List PyFloat)
    (h7 : 7 ≤ parts.length)
    (hcid : parseIntPy (parts.headD []) = some cid)
    (hparse : parseAll parts.tail = some vs)
    (heven : parts.tail.length % 2 = 0)
    (hbad : ∃ v ∈ vs, badCoord v = true) :
    ∃ i v, vs[i]? = some v ∧ badCoord v = true ∧
      (∀ j w, j < i → vs[j]? = some w → badCoord w = false) ∧
      checkLine ln parts n = classErrors ln cid n ++ [.coordRange ln v i] ∧
      (∀ (lines : List (List Char)) (k : Nat) (l : List Char),
        lines[k]? = some l → (trimL l).isEmpty = false → pySplit (trimL l) = parts →
        (check_single_label lines n).is_invalid = true) := by
  obtain ⟨i, v, h1, h2, h3, h4⟩ := scanCoords_first_bad ln parts.tail vs 0 hparse hbad
  rw [Nat.zero_add] at h4
  have hline : checkLine ln parts n = classErrors ln cid n ++ [.coordRange ln v i] := by
    rw [checkLine_eq_class_append ln parts n cid h7 hcid]
    congr 1
    unfold coordPhase
    rw [if_neg (by omega), h4]
  refine ⟨i, v, h1, h2, h3, hline, ?_⟩
  intro lines k l hget hblank hps
  obtain ⟨i2, v2, g1, g2, g3, g4⟩ := scanCoords_first_bad (1 + k) parts.tail vs 0 hparse hbad
  rw [Nat.zero_add] at g4
  have hline2 : checkLine (1 + k) parts n
      = classErrors (1 + k) cid n ++ [.coordRange (1 + k) v2 i2] := by
    rw [checkLine_eq_class_append (1 + k) parts n cid h7 hcid]
    congr 1
    unfold coordPhase
    rw [if_neg (by omega), g4]
  refine is_invalid_of_line_error lines n k l (.coordRange (1 + k) v2 i2) hget hblank ?_
  rw [hps, hline2]
  exact List.mem_append_right _ (by simp)

/-- C4 witness: the amended statement at the concrete line
`"0 2.0 0 0 0 0 0"` (first coordinate `2.0 > 1`, reported at index 0). -/
theorem c4_first_range_violation_witness :
    ∃ i v,
      ([⟨20, 10⟩, ⟨0, 1⟩, ⟨0, 1⟩, ⟨0, 1⟩, ⟨0, 1⟩, ⟨0, 1⟩] : List PyFloat)[i]? = some v ∧
      badCoord v = true ∧
      (∀ j w, j < i →
        ([⟨20, 10⟩, ⟨0, 1⟩, ⟨0, 1⟩, ⟨0, 1⟩, ⟨0, 1⟩, ⟨0, 1⟩] : List PyFloat)[j]? = some w →
        badCoord w = false) ∧
      checkLine 1 [['0'], ['2', '.', '0'], ['0'], ['0'], ['0'], ['0'], ['0']] 80
        = classErrors 1 0 80 ++ [.coordRange 1 v i] ∧
      (∀ (lines : List (List Char)) (k : Nat) (l : List Char),
        lines[k]? = some l → (trimL l).isEmpty = false →
        pySplit (trimL l) = [['0'], ['2', '.', '0'], ['0'], ['0'], ['0'], ['0'], ['0']] →
        (check_single_label lines 80).is_invalid = true) :=
  c4_first_range_violation 1 [['0'], ['2', '.', '0'], ['0'], ['0'], ['0'], ['0'], ['0']] 80 0
    [⟨20, 10⟩, ⟨0, 1⟩, ⟨0, 1⟩, ⟨0, 1⟩, ⟨0, 1⟩, ⟨0, 1⟩]
    (by decide) (by decide) (by decide) (by decide)
    ⟨⟨20, 10⟩, by decide, by decide⟩

/-- C5, counterexample: the line `"-1"` has a first token that parses as the
out-of-range class id `-1`, yet no class-id range error is emitted — the
token-count check rejects the line first.  (The claim omits the `≥ 7` tokens
precondition.) -/
theorem c5_counterexample :
    parseIntPy ['-', '1'] = some (-1) ∧
    ((-1 : Int) < 0 ∨ (-1 : Int) ≥ (3 : Int)) ∧
    checkLine 1 [['-', '1']] 3 = [.insufficientPoints 1 0] ∧
    (∀ ln cid m, LabelError.classIdRange ln cid m ∉ checkLine 1 [['-', '1']] 3) := by
  refine ⟨by decide, by decide, by decide, ?_⟩
  intro ln cid m hmem
  rw [(by decide : checkLine 1 [['-', '1']] 3 = [.insufficientPoints 1 0])] at hmem
  simp at hmem

/-- C5, amended: on a label line with at least 7 tokens whose first token
parses as an integer `classId` outside `[0, numClasses)`, the verifier emits
the class-id range error, marks the file invalid, and the check does not
short-circuit the remaining checks of the line — the output is exactly the
class-id error followed by whatever the parity check and coordinate scan
produce, so a single line may accumulate both a class-id error and a
coordinate error. -/
theorem c5_class_id_no_short_circuit (ln : Nat) (parts : List (List Char)) (n : Nat) (cid : Int)
    (h7 : 7 ≤ parts.length)
    (hcid : parseIntPy (parts.headD []) = some cid)
    (hout : cid < 0 ∨ (n : Int) ≤ cid) :
    checkLine ln parts n = .classIdRange ln cid n :: coordPhase ln parts.tail ∧
    LabelError.classIdRange ln cid n ∈ checkLine ln parts n ∧
    (∀ (lines : List (List Char)) (k : Nat) (l : List Char),
      lines[k]? = some l → (trimL l).isEmpty = false → pySplit (trimL l) = parts →
      (check_single_label lines n).is_invalid = true) := by
  have hce : ∀ m : Nat, classErrors m cid n = [.classIdRange m cid n] := by
    intro m
    unfold classErrors
    rw [if_pos]
    exact hout
  have hline : ∀ m : Nat, checkLine m parts n
      = .classIdRange m cid n :: coordPhase m parts.tail := by
    intro m
    rw [checkLine_eq_class_append m parts n cid h7 hcid, hce m, List.singleton_append]
  refine ⟨hline ln, by rw [hline ln]; simp, ?_⟩
  intro lines k l hget hblank hps
  refine is_invalid_of_line_error lines n k l (.classIdRange (1 + k) cid n) hget hblank ?_
  rw [hps, hline (1 + k)]
  simp

/-- C5 witness: the amended statement at the concrete line
`"9 2.0 0 0 0 0 0"` with one configured class — the line accumulates **both**
the class-id error and a coordinate range error. -/
theorem c5_class_id_no_short_circuit_witness :
    (checkLine 1 [['9'], ['2', '.', '0'], ['0'], ['0'], ['0'], ['0'], ['0']] 1
        = .classIdRange 1 9 1
            :: coordPhase 1 [['2', '.', '0'], ['0'], ['0'], ['0'], ['0'], ['0']] ∧
      LabelError.classIdRange 1 9 1
        ∈ checkLine 1 [['9'], ['2', '.', '0'], ['0'], ['0'], ['0'], ['0'], ['0']] 1 ∧
      (check_single_label ["9 2.0 0 0 0 0 0\n".toList] 1).is_invalid = true) ∧
    checkLine 1 [['9'], ['2', '.', '0'], ['0'], ['0'], ['0'], ['0'], ['0']] 1
      = [.classIdRange 1 9 1, .coordRange 1 ⟨20, 10⟩ 0] := by
  have h := c5_class_id_no_short_circuit 1
    [['9'], ['2', '.', '0'], ['0'], ['0'], ['0'], ['0'], ['0']] 1 9
    (by decide) (by decide) (by decide)
  exact ⟨⟨h.1, h.2.1,
    h.2.2 ["9 2.0 0 0 0 0 0\n".toList] 0 "9 2.0 0 0 0 0 0\n".toList
      (by decide) (by decide) (by decide)⟩, by decide⟩

/-- C6: a non-blank label line splitting into fewer than 7 tokens produces
exactly one insufficient-points error citing `(tokenCount - 1) / 2` points,
no further check runs on the line, and the file is marked invalid. -/
theorem c6_insufficient_points (ln : Nat) (parts : List (List Char)) (n : Nat)
    (_hne : parts ≠ []) (h7 : parts.length < 7) :
    checkLine ln parts n = [.insufficientPoints ln ((parts.length - 1) / 2)] ∧
    (∀ (lines : List (List Char)) (k : Nat) (l : List Char),
      lines[k]? = some l → (trimL l).isEmpty = false → pySplit (trimL l) = parts →
      (check_single_label lines n).is_invalid = true) := by
  have hline : ∀ m : Nat,
      checkLine m parts n = [.insufficientPoints m ((parts.length - 1) / 2)] := by
    intro m
    unfold checkLine
    rw [if_pos h7]
  refine ⟨hline ln, ?_⟩
  intro lines k l hget hblank hps
  refine is_invalid_of_line_error lines n k l
    (.insufficientPoints (1 + k) ((parts.length - 1) / 2)) hget hblank ?_
  rw [hps, hline (1 + k)]
  simp

/-- C6 witness: the concrete line `"0 0.5"` (2 tokens, i.e. 0 complete
points). -/
theorem c6_insufficient_points_witness :
    checkLine 1 [['0'], ['0', '.', '5']] 3 = [.insufficientPoints 1 0] ∧
    (check_single_label ["0 0.5\n".toList] 3).is_invalid = true := by
  have h := c6_insufficient_points 1 [['0'], ['0', '.', '5']] 3 (by decide) (by decide)
  exact ⟨h.1,
    h.2 ["0 0.5\n".toList] 0 "0 0.5\n".toList (by decide) (by decide) (by decide)⟩

/-- C7: a non-blank label line with at least 7 tokens, a parsable class id and
an odd number of coordinate tokens produces the odd-coordinate-count error
(after any class-id error), no individual coordinate range is evaluated
(no range error can appear), and the file is marked invalid. -/
theorem c7_odd_coordinate_count (ln : Nat) (parts : List (List Char)) (n : Nat) (cid : Int)
    (h7 : 7 ≤ parts.length)
    (hcid : parseIntPy (parts.headD []) = some cid)
    (hodd : parts.tail.length % 2 = 1) :
    checkLine ln parts n = classErrors ln cid n ++ [.oddCoordCount ln parts.tail.length] ∧
    (∀ v i, LabelError.coordRange ln v i ∉ checkLine ln parts n) ∧
    (∀ (lines : List (List Char)) (k : Nat) (l : List Char),
      lines[k]? = some l → (trimL l).isEmpty = false → pySplit (trimL l) = parts →
      (check_single_label lines n).is_invalid = true) := by
  have hline : ∀ m : Nat, checkLine m parts n
      = classErrors m cid n ++ [.oddCoordCount m parts.tail.length] := by
    intro m
    rw [checkLine_eq_class_append m parts n cid h7 hcid]
    congr 1
    unfold coordPhase
    rw [if_pos (by omega)]
  refine ⟨hline ln, ?_, ?_⟩
  · intro v i hmem
    rw [hline ln] at hmem
    rcases List.mem_append.mp hmem with h | h
    · unfold classErrors at h
      by_cases hc : cid < 0 ∨ cid ≥ (n : Int)
      · rw [if_pos hc] at h
        simp at h
      · rw [if_neg hc] at h
        simp at h
    · simp at h
  · intro lines k l hget hblank hps
    refine is_invalid_of_line_error lines n k l
      (.oddCoordCount (1 + k) parts.tail.length) hget hblank ?_
    rw [hps, hline (1 + k)]
    exact List.mem_append_right _ (by simp)

/-- C7 witness: the concrete line `"0 0 0 0 0 0 0 0"` (8 tokens, 7 coordinate
tokens). -/
theorem c7_odd_coordinate_count_witness :
    checkLine 1 [['0'], ['0'], ['0'], ['0'], ['0'], ['0'], ['0'], ['0']] 3
      = classErrors 1 0 3 ++ [.oddCoordCount 1 7] ∧
    (∀ v i, LabelError.coordRange 1 v i
      ∉ checkLine 1 [['0'], ['0'], ['0'], ['0'], ['0'], ['0'], ['0'], ['0']] 3) ∧
    (check_single_label ["0 0 0 0 0 0 0 0\n".toList] 3).is_invalid = true := by
  have h := c7_odd_coordinate_count 1
    [['0'], ['0'], ['0'], ['0'], ['0'], ['0'], ['0'], ['0']] 3 0
    (by decide) (by decide) (by decide)
  exact ⟨h.1, h.2.1,
    h.2.2 ["0 0 0 0 0 0 0 0\n".toList] 0 "0 0 0 0 0 0 0 0\n".toList
      (by decide) (by decide) (by decide)⟩

/-- C8: in a scanned split, an image stem with no same-stem label file yields
the missing-label error, is counted by the missing-labels counter (which
equals the number of such images), and is never in the paired list; a label
stem with no matching image yields the orphan warning and is counted by the
orphaned-labels counter (which equals the number of such labels). -/
theorem c8_pairing (fs : SplitFS) (s t : String)
    (hs : s ∈ fs.imageStems) (hsn : labelExists fs s = false)
    (ht : t ∈ fs.labelStems) (htn : fs.imageStems.contains t = false) :
    DatasetError.missingLabel s ∈ (scanMissingLabels fs).1 ∧
    (scanMissingLabels fs).2
      = (fs.imageStems.filter (fun u => !(labelExists fs u))).length ∧
    s ∉ valid_pairs fs ∧
    DatasetWarning.orphanLabel t ∈ (scanOrphanLabels fs).1 ∧
    (scanOrphanLabels fs).2
      = (fs.labelStems.filter (fun u => !(fs.imageStems.contains u))).length := by
  have h1 := foldl_collect (fun stem => labelExists fs stem)
    DatasetError.missingLabel fs.imageStems ([], 0)
  have h2 := foldl_collect (fun stem => fs.imageStems.contains stem)
    DatasetWarning.orphanLabel fs.labelStems ([], 0)
  unfold scanMissingLabels scanOrphanLabels
  rw [h1, h2]
  refine ⟨?_, by simp, ?_, ?_, by simp⟩
  · simp only [List.nil_append]
    refine List.mem_map.mpr ⟨s, List.mem_filter.mpr ⟨hs, by simp [hsn]⟩, rfl⟩
  · intro hmem
    unfold valid_pairs at hmem
    have := List.mem_filter.mp hmem
    rw [hsn] at this
    exact Bool.false_ne_true this.2
  · simp only [List.nil_append]
    refine List.mem_map.mpr ⟨t, List.mem_filter.mpr ⟨ht, by simpa using htn⟩, rfl⟩

/-- C8 witness: split with images `a`, `b` and labels `b`, `c` — image `a`
is unmatched, label `c` is orphaned. -/
theorem c8_pairing_witness :
    DatasetError.missingLabel "a" ∈ (scanMissingLabels ⟨["a", "b"], ["b", "c"]⟩).1 ∧
    (scanMissingLabels ⟨["a", "b"], ["b", "c"]⟩).2
      = ((["a", "b"] : List String).filter
          (fun u => !(labelExists ⟨["a", "b"], ["b", "c"]⟩ u))).length ∧
    "a" ∉ valid_pairs ⟨["a", "b"], ["b", "c"]⟩ ∧
    DatasetWarning.orphanLabel "c" ∈ (scanOrphanLabels ⟨["a", "b"], ["b", "c"]⟩).1 ∧
    (scanOrphanLabels ⟨["a", "b"], ["b", "c"]⟩).2
      = ((["b", "c"] : List String).filter
          (fun u => !((["a", "b"] : List String).contains u))).length :=
  c8_pairing ⟨["a", "b"], ["b", "c"]⟩ "a" "c"
    (by decide) (by decide) (by decide) (by decide)

/-- C9: `DatasetChecker.run` returns pass exactly when the accumulated error
list is empty, `main` exits with code 0 exactly on pass and 1 otherwise, and
the result is a function of the errors alone — warnings never affect it. -/
theorem c9_exit_code (c : CheckerState) :
    (run_result c = true ↔ c.errors = []) ∧
    (main_exit_code (run_result c) = 0 ↔ c.errors = []) ∧
    (main_exit_code (run_result c) = 1 ↔ c.errors ≠ []) ∧
    (∀ ws : List DatasetWarning, run_result ⟨c.errors, ws⟩ = run_result c) := by
  unfold run_result main_exit_code
  refine ⟨?_, ?_, ?_, fun ws => rfl⟩
  · simp [List.length_eq_zero]
  · by_cases h : c.errors = [] <;> simp [h]
  · by_cases h : c.errors = [] <;> simp [h]

/-- C10: `check_single_label` is total on any file content — the only
exception the per-line `try` block can raise is `ValueError` (from `int()`
or `float()`), and `checkLine` always catches it, appending a numeric-format
error after whatever errors the line had already recorded, and returns a
plain result list. -/
theorem c10_parse_failures_caught (ln : Nat) (parts : List (List Char)) (n : Nat)
    (es : List LabelError) (e : PyExc)
    (h7 : 7 ≤ parts.length)
    (herr : lineBody ln parts n = .error (es, e)) :
    e = .valueError ∧ checkLine ln parts n = es ++ [.numericFormat ln] := by
  constructor
  · cases e
    rfl
  · unfold checkLine
    rw [if_neg (by omega), herr]

/-- C10 witness: the concrete line `"x 0 0 0 0 0 0"` whose class-id token
raises `ValueError` in `int()`. -/
theorem c10_parse_failures_caught_witness :
    PyExc.valueError = PyExc.valueError ∧
    checkLine 1 [['x'], ['0'], ['0'], ['0'], ['0'], ['0'], ['0']] 3
      = [] ++ [.numericFormat 1] :=
  c10_parse_failures_caught 1 [['x'], ['0'], ['0'], ['0'], ['0'], ['0'], ['0']] 3
    [] .valueError (by decide) rfl
